import Mathlib

/-!
Verification development for the pykg-config metadata resolution engine.

The Lean definitions below are a shallow embedding of the Python sources
under src/pykg_config: pcfile.py, dependency.py, packagespeclist.py and
pkgsearcher.py.  Modules of the repository that are not under src/
(props.py, substitute.py, version.py, operators.py, package.py, options.py)
are modelled from the specification and marked as such in their doc
comments.  Filesystem access is abstracted: functions that read files take
their inputs (line lists, candidate path lists, parse outcomes) as
arguments.
-/

namespace PykgConfig

/-! ## Python string primitives

Python str.strip and friends use the whitespace set below; regular
expression classes are compiled to character predicates.  All strings that
reach the parser in the pipeline are single physical lines, so they contain
no newline characters; the embedding treats the dot of a regex as matching
any character.  Word characters are modelled over ASCII (pc files are
ASCII in practice). -/

def isPySpace (c : Char) : Bool :=
  c == ' ' || c == '\t' || c == '\n' || c == '\r' || c == '\x0b' || c == '\x0c'

/-- Python str.lstrip with no arguments. -/
def pyLstrip (s : String) : String :=
  ⟨s.data.dropWhile isPySpace⟩

/-- Python str.rstrip with no arguments. -/
def pyRstrip (s : String) : String :=
  ⟨(s.data.reverse.dropWhile isPySpace).reverse⟩

/-- Python str.strip with no arguments. -/
def pyStrip (s : String) : String :=
  pyRstrip (pyLstrip s)

/-- Python str.lower, over ASCII (property keys of pc files are ASCII). -/
def pyLower (s : String) : String :=
  ⟨s.data.map Char.toLower⟩

/-- Equality of Except values is decidable componentwise; used to evaluate
the embedding on concrete inputs. -/
instance {ε α : Type} [DecidableEq ε] [DecidableEq α] : DecidableEq (Except ε α) :=
  fun x y =>
    match x, y with
    | .ok a, .ok b =>
      if h : a = b then isTrue (by rw [h]) else isFalse (fun he => h (Except.ok.inj he))
    | .ok _, .error _ => isFalse (fun he => Except.noConfusion he)
    | .error _, .ok _ => isFalse (fun he => Except.noConfusion he)
    | .error a, .error b =>
      if h : a = b then isTrue (by rw [h]) else isFalse (fun he => h (Except.error.inj he))

/-- Lookup in a Python dict modelled as an association list. -/
def lookupAssoc {α : Type} (m : List (String × α)) (k : String) : Option α :=
  (m.find? (fun p => p.1 == k)).map (fun p => p.2)

/-- Assignment d[k] = v on a Python dict modelled as an association list:
an existing key is updated in place, a new key is appended (insertion
order, as in CPython dicts). -/
def setAssoc (m : List (String × String)) (k v : String) : List (String × String) :=
  if m.any (fun p => p.1 == k) then
    m.map (fun p => if p.1 == k then (k, v) else p)
  else
    m ++ [(k, v)]

/-! ## pcfile.py: errors -/

/-- Parse-time failures of pcfile.py.  multiplyDefined carries the
duplicated key (MultiplyDefinedValueError), trailingContinuation the
offending line (TrailingContinuationCharError), undefinedVariable the
unresolved variable name (UndefinedVarError from substitute.py).
indexError models an uncaught Python IndexError from an out-of-range
sequence subscript. -/
inductive ParseError
  | multiplyDefined (key : String)
  | trailingContinuation (line : String)
  | undefinedVariable (name : String)
  | indexError
deriving DecidableEq

/-! ## pcfile.py: comment stripping and line splitting -/

/-- strip_comments from pcfile.py: everything from the first hash
character onwards is removed (line.find of the hash, then the slice up to
it, which is exactly takeWhile). -/
def strip_comments (line : String) : String :=
  ⟨line.data.takeWhile (fun c => c != '#')⟩

/-- Character class of the regex key groups in pcfile.py: word characters
plus dot. -/
def isWordChar (c : Char) : Bool :=
  c.isAlphanum || c == '_' || c == '.'

/-- The constants VARIABLE and PROPERTY from pcfile.py. -/
inductive LineType
  | VARIABLE
  | PROPERTY
deriving DecidableEq

/-- Matching of pcfile.py property_re and variable_re against the start of
a line: a maximal nonempty run of word characters, the separator (colon or
equals), optional whitespace, then an optional value running to the end of
the line.  The value group is none when nothing but whitespace follows the
separator, mirroring the optional regex group. -/
def matchKeyed (line : String) (sep : Char) : Option (String × Option String) :=
  let key := line.data.takeWhile isWordChar
  if key.isEmpty then none
  else
    match line.data.drop key.length with
    | c :: rest =>
      if c = sep then
        let afterWs := rest.dropWhile isPySpace
        some (⟨key⟩, if afterWs.isEmpty then none else some ⟨afterWs⟩)
      else none
    | [] => none

/-- split_pc_file_line from pcfile.py: the property grammar is tried
first, then the variable grammar; a missing value group is coalesced to
the empty string (the source writes: the value group, or the empty
string).  Neither matching yields none, the malformed-line outcome. -/
def split_pc_file_line (line : String) : Option (String × String × LineType) :=
  match matchKeyed line ':' with
  | some (k, v) => some (k, v.getD "", LineType.PROPERTY)
  | none =>
    match matchKeyed line '=' with
    | some (k, v) => some (k, v.getD "", LineType.VARIABLE)
    | none => none

/-! ## props.py (modelled) -/

/-- Modelled from the spec: props.py is not under src/.  The fixed,
pre-declared known-property table empty_raw_props, keyed by the lowercase
property names of the pc file format; it is both the initial properties
mapping and the source of per-key default values.  The spec fixes the key
set (name, description, version, requires and friends) but not the default
values; as the name of the table indicates, every default is the empty
string. -/
def empty_raw_props : List (String × String) :=
  [("name", ""), ("description", ""), ("version", ""),
   ("requires", ""), ("requires.private", ""), ("conflicts", ""),
   ("libs", ""), ("libs.private", ""), ("cflags", "")]

/-! ## substitute.py (modelled) -/

/-- Modelled from the spec: substitute.py is not under src/.  A single
left-to-right pass replacing each reference of the form dollar, open
brace, name, close brace by the value of that name, preferring the
in-progress variable mapping and falling back to the globals; an
unresolved name fails with the undefined-variable error carrying the name.
Substituted values are not re-scanned (the spec: single-pass over the
already-substituted values of earlier-defined variables).  A dollar not
followed by a well-formed reference is kept literally (the spec does not
constrain this case; no claim depends on it).  The fuel argument is the
length of the text, which bounds the number of steps. -/
def subGo (vars globals : List (String × String)) :
    Nat → List Char → Except ParseError (List Char)
  | _, [] => .ok []
  | 0, cs => .ok cs
  | fuel + 1, c :: cs =>
    if c = '$' then
      match cs with
      | '{' :: rest =>
        let name := rest.takeWhile (fun d => d != '}')
        match rest.drop name.length with
        | '}' :: rest2 =>
          match lookupAssoc vars ⟨name⟩ with
          | some v => (subGo vars globals fuel rest2).map (fun tl => v.data ++ tl)
          | none =>
            match lookupAssoc globals ⟨name⟩ with
            | some v => (subGo vars globals fuel rest2).map (fun tl => v.data ++ tl)
            | none => .error (.undefinedVariable ⟨name⟩)
        | _ => (subGo vars globals fuel cs).map (fun tl => c :: tl)
      | _ => (subGo vars globals fuel cs).map (fun tl => c :: tl)
    else
      (subGo vars globals fuel cs).map (fun tl => c :: tl)

/-- Modelled from the spec: entry point of substitute.py. -/
def substitute (text : String) (vars globals : List (String × String)) :
    Except ParseError String :=
  (subGo vars globals text.data.length text.data).map (fun cs => ⟨cs⟩)

/-! ## pcfile.py: parse_line -/

/-- The in-progress parse state threaded through parse_line: the four
values raw_vars, vars, props and seen_props of parse_pc_file_lines. -/
structure PCState where
  raw_vars : List (String × String)
  vars : List (String × String)
  props : List (String × String)
  seen_props : List String
deriving DecidableEq

/-- parse_line from pcfile.py.  An empty line is returned unchanged.  A
variable line fails with the duplicate error when the key is already in
vars; when the key is in globals, the global value (not the line value) is
substituted, while raw_vars records the stripped line value either way.  A
property line fails with the duplicate error when the key string is
already in seen_props; known keys (membership of the lowercased key in
empty_raw_props) are recorded under the lowercase key, unknown keys are
logged and ignored.  The source guard replacing a missing value with the
default from empty_raw_props is unreachable here, because
split_pc_file_line coalesces a missing value group to the empty string; a
malformed line (no grammar matches) is glossed over. -/
def parse_line (line : String) (st : PCState) (globals : List (String × String)) :
    Except ParseError PCState :=
  if line = "" then .ok st
  else
    match split_pc_file_line line with
    | some (key, value, LineType.VARIABLE) =>
      if st.vars.any (fun p => p.1 == key) then .error (.multiplyDefined key)
      else
        match lookupAssoc globals key with
        | some gval =>
          match substitute gval st.vars globals with
          | .error e => .error e
          | .ok sub =>
            .ok { st with raw_vars := setAssoc st.raw_vars key (pyStrip value),
                          vars := setAssoc st.vars key sub }
        | none =>
          match substitute (pyStrip value) st.vars globals with
          | .error e => .error e
          | .ok sub =>
            .ok { st with raw_vars := setAssoc st.raw_vars key (pyStrip value),
                          vars := setAssoc st.vars key sub }
    | some (key, value, LineType.PROPERTY) =>
      if key ∈ st.seen_props then .error (.multiplyDefined key)
      else if (lookupAssoc empty_raw_props (pyLower key)).isSome then
        .ok { st with props := setAssoc st.props (pyLower key) value,
                      seen_props := st.seen_props ++ [key] }
      else .ok st
    | none => .ok st

/-! ## pcfile.py: merge_lines -/

/-- The body of the merge loop of merge_lines.  The cur argument holds the
line under construction when the previous physical line ended with the
continuation character (the Python new_line inside the inner while); on
each merge step the source drops the last TWO characters of the pending
line (the comment in the source says it drops the newline and the
continuation character, but rstrip already removed the newline), appends a
space and the rstripped next physical line.  Running out of physical lines
while a merge is pending is the out-of-range subscript lines[ii] of the
source, an uncaught IndexError. -/
def mergeGo (cont : Char) (cur : Option String) :
    List String → Except ParseError (List String)
  | [] =>
    match cur with
    | none => .ok []
    | some _ => .error .indexError
  | l :: rest =>
    match cur with
    | none =>
      let nl := pyRstrip l
      if nl = "" then mergeGo cont none rest
      else if nl.back = cont then mergeGo cont (some nl) rest
      else
        match mergeGo cont none rest with
        | .error e => .error e
        | .ok r => .ok (nl :: r)
    | some pend =>
      let nl2 := pend.dropRight 2 ++ " " ++ pyRstrip l
      if nl2.back = cont then mergeGo cont (some nl2) rest
      else
        match mergeGo cont none rest with
        | .error e => .error e
        | .ok r => .ok (nl2 :: r)

/-- merge_lines from pcfile.py.  The guard at the top subscripts
lines[-1][-1]: an empty list or an empty last line is an uncaught
IndexError; when the very last character of the last raw line is the
continuation character the trailing-continuation error is raised;
otherwise the merge loop runs. -/
def merge_lines (lines : List String) (cont_char : Char) :
    Except ParseError (List String) :=
  match lines.getLast? with
  | none => .error .indexError
  | some last =>
    if last = "" then .error .indexError
    else if last.back = cont_char then .error (.trailingContinuation last)
    else mergeGo cont_char none lines

/-- The initial state of parse_pc_file_lines: empty variable mappings, the
copy of empty_raw_props, no seen properties. -/
def initPCState : PCState :=
  ⟨[], [], empty_raw_props, []⟩

/-- parse_pc_file_lines from pcfile.py: merge continuation lines, then
fold parse_line over the comment-stripped, stripped logical lines,
returning the triple raw_vars, vars, props. -/
def parse_pc_file_lines (lines : List String) (globals : List (String × String)) :
    Except ParseError
      (List (String × String) × List (String × String) × List (String × String)) :=
  match merge_lines lines '\\' with
  | .error e => .error e
  | .ok merged =>
    match merged.foldlM
        (fun st line => parse_line (pyStrip (strip_comments line)) st globals)
        initPCState with
    | .error e => .error e
    | .ok st => .ok (st.raw_vars, st.vars, st.props)

/-! ## version.py (modelled) -/

/-- Modelled from the spec: version.py is not under src/.  A version value
keeps the raw text it was parsed from; the empty string is the
distinguished empty value.  Ordering (below) extracts an ordered sequence
of components on demand. -/
structure Version where
  raw : String
deriving DecidableEq

/-- Modelled from the spec: is_empty of a version value. -/
def Version.is_empty (v : Version) : Bool :=
  v.raw == ""

/-- Splitting a character list at every dot; the pieces in order. -/
def splitDotAux (cur : List Char) : List Char → List String
  | [] => [⟨cur.reverse⟩]
  | c :: cs =>
    if c = '.' then ⟨cur.reverse⟩ :: splitDotAux [] cs
    else splitDotAux (c :: cur) cs

/-- Modelled from the spec: the ordered component sequence of a version
string, the dot-separated chunks; the empty string has no components. -/
def verComponents (v : Version) : List String :=
  if v.raw = "" then [] else splitDotAux [] v.raw.data

/-- The numeric value of a component made of decimal digits only, else
none. -/
def compToNat (s : String) : Option Nat :=
  if s.data ≠ [] ∧ s.data.all Char.isDigit then
    some (s.data.foldl (fun n c => n * 10 + (c.toNat - 48)) 0)
  else none

/-- Modelled from the spec: two components compare numerically when both
are numeric and lexically otherwise. -/
def compareComponent (a b : String) : Ordering :=
  match compToNat a, compToNat b with
  | some x, some y => compare x y
  | _, _ => compare a b

/-- Componentwise comparison of component sequences; a shorter sequence
that is a prefix of the other compares below it, so the empty value is the
minimum. -/
def compareComponents : List String → List String → Ordering
  | [], [] => .eq
  | [], _ :: _ => .lt
  | _ :: _, [] => .gt
  | a :: as, b :: bs =>
    match compareComponent a b with
    | .eq => compareComponents as bs
    | o => o

/-- Modelled from the spec: the total order on version values used by the
relational operators of version.py. -/
def verCompare (a b : Version) : Ordering :=
  compareComponents (verComponents a) (verComponents b)

/-! ## operators.py (modelled) and dependency.py -/

/-- Modelled from the spec: the operator constants of operators.py. -/
inductive Operator
  | ALWAYS_MATCH
  | LESS_THAN
  | LESS_THAN_EQUAL
  | EQUAL
  | NOT_EQUAL
  | GREATER_THAN_EQUAL
  | GREATER_THAN
deriving DecidableEq

/-- Modelled from the spec: operator_to_text of operators.py; the
always-match operator has no text (rendering omits operator and version
when the version is empty). -/
def operator_to_text : Operator → String
  | .ALWAYS_MATCH => ""
  | .LESS_THAN => "<"
  | .LESS_THAN_EQUAL => "<="
  | .EQUAL => "="
  | .NOT_EQUAL => "!="
  | .GREATER_THAN_EQUAL => ">="
  | .GREATER_THAN => ">"

/-- Modelled from the spec: text_to_operator of operators.py; absent or
unrecognised operator text defaults to the always-match operator (the
dependency-list parser is deliberately permissive and never fails). -/
def text_to_operator (t : String) : Operator :=
  if t = "<" then .LESS_THAN
  else if t = "<=" then .LESS_THAN_EQUAL
  else if t = "=" then .EQUAL
  else if t = "!=" then .NOT_EQUAL
  else if t = ">=" then .GREATER_THAN_EQUAL
  else if t = ">" then .GREATER_THAN
  else .ALWAYS_MATCH

/-- The Dependency object of dependency.py: a name, a relational operator
and a version bound.  Its Python equality is fieldwise, which the derived
structural equality mirrors. -/
structure Dependency where
  name : String
  operator : Operator
  version : Version
deriving DecidableEq

/-- Rendering a Dependency to text, dependency.py: the bare name when the
version is empty, otherwise name, operator text and version
concatenated. -/
def depToString (d : Dependency) : String :=
  if d.version.is_empty then d.name
  else d.name ++ operator_to_text d.operator ++ d.version.raw

/-- meets_requirement from dependency.py: evaluates candidate-version
OPERATOR own-version; the always-match operator accepts everything.  The
source ends with an unreachable return of false after the exhaustive
operator chain. -/
def Dependency.meets_requirement (d : Dependency) (other_version : Version) : Bool :=
  match d.operator with
  | .ALWAYS_MATCH => true
  | .LESS_THAN => verCompare other_version d.version == .lt
  | .LESS_THAN_EQUAL => verCompare other_version d.version != .gt
  | .EQUAL => verCompare other_version d.version == .eq
  | .NOT_EQUAL => verCompare other_version d.version != .eq
  | .GREATER_THAN_EQUAL => verCompare other_version d.version != .lt
  | .GREATER_THAN => verCompare other_version d.version == .gt

/-! ## packagespeclist.py

The findall regex of parse_package_spec_list is compiled to the explicit
scanner below: a token of name characters (anything but whitespace, comma
and the four operator characters), then optionally either a comma or an
operator run with optional surrounding whitespace followed by a version
token (anything but whitespace and comma).  Backtracking of the greedy
operator run hands its final character to the version token when the
version token would otherwise be empty. -/

/-- Character class of the name group of the spec-list regex. -/
def isNameTokChar (c : Char) : Bool :=
  !(isPySpace c || c == ',' || c == '!' || c == '=' || c == '<' || c == '>')

/-- Character class of the operator group of the spec-list regex. -/
def isOpTokChar (c : Char) : Bool :=
  c == '!' || c == '=' || c == '<' || c == '>'

/-- Character class of the version group of the spec-list regex. -/
def isVerTokChar (c : Char) : Bool :=
  !(isPySpace c || c == ',')

/-- The operator-and-version tail of one spec-list match: optional
whitespace, a nonempty greedy operator run, optional whitespace, a
nonempty version token.  When the greedy operator run leaves an empty
version token the regex engine backtracks one operator character into the
version token (one step always suffices, since an operator character is a
version character); a single-character run cannot give its character up,
so the tail fails to match. -/
def matchOpVer (cs : List Char) : Option (String × String × List Char) :=
  let rest0 := cs.dropWhile isPySpace
  let ops := rest0.takeWhile isOpTokChar
  let tl := rest0.drop ops.length
  if ops.isEmpty then none
  else
    let afterWs := tl.dropWhile isPySpace
    let ver := afterWs.takeWhile isVerTokChar
    if ver.isEmpty then
      if ops.length ≥ 2 then
        let ver2 := ops.drop (ops.length - 1) ++ tl.takeWhile isVerTokChar
        some (⟨ops.take (ops.length - 1)⟩, ⟨ver2⟩,
              tl.drop (tl.takeWhile isVerTokChar).length)
      else none
    else some (⟨ops⟩, ⟨ver⟩, afterWs.drop ver.length)

/-- One match of the spec-list regex at the current position: a nonempty
name token, then the comma alternative, else the operator-version tail,
else the name alone (the group is optional).  Unmatched groups surface as
empty strings, exactly as re.findall reports them. -/
def matchOne (cs : List Char) : Option ((String × String × String) × List Char) :=
  let name := cs.takeWhile isNameTokChar
  if name.isEmpty then none
  else
    let rest := cs.drop name.length
    match rest with
    | c :: rest2 =>
      if c = ',' then some ((⟨name⟩, "", ""), rest2)
      else
        match matchOpVer rest with
        | some (op, ver, rest3) => some ((⟨name⟩, op, ver), rest3)
        | none => some ((⟨name⟩, "", ""), rest)
    | [] => some ((⟨name⟩, "", ""), [])

/-- The scan loop of re.findall: try a match at the current position,
collect it and resume after it, else advance one character.  Every match
consumes at least one character, so the length of the text is enough
fuel. -/
def findallGo : Nat → List Char → List (String × String × String)
  | _, [] => []
  | 0, _ :: _ => []
  | fuel + 1, c :: cs =>
    match matchOne (c :: cs) with
    | some (t, rest) => t :: findallGo fuel rest
    | none => findallGo fuel cs

/-- parse_package_spec_list from packagespeclist.py: findall over the
stripped input, then each match becomes a Dependency whose operator comes
from text_to_operator and whose version is parsed from the version token
when that token is nonempty and is the empty version otherwise. -/
def parse_package_spec_list (value : String) : List Dependency :=
  let stripped := pyStrip value
  (findallGo stripped.data.length stripped.data).map
    (fun t =>
      { name := t.1,
        operator := text_to_operator t.2.1,
        version := if t.2.2 ≠ "" then ⟨t.2.2⟩ else ⟨""⟩ })

/-! ## package.py (modelled) and pkgsearcher.py -/

/-- Modelled from the spec: the Package produced by feeding a parsed pc
file through substitution; the resolver only consults its version
property (and reports names in diagnostics), so only those fields are
kept. -/
structure Package where
  name : String
  version : Version
deriving DecidableEq

/-- The outcome of attempting Package(pcfile, globals) on one candidate
path: success, an IOError while opening the file, an undefined-variable
parse failure carrying the variable name, or any other parse error. -/
inductive PkgParse
  | ok (p : Package)
  | ioError
  | undefinedVar (v : String)
  | parseFailed (e : ParseError)
deriving DecidableEq

/-- The failures search_for_package can surface: PackageNotFoundError,
its subclass NoOpenableFilesError, the re-raised UndefinedVarError tagged
with the offending file path, and an uncaught parse error propagating
through. -/
inductive SearchError
  | packageNotFound (spec : String)
  | noOpenableFiles (spec : String)
  | undefinedVarError (v : String) (path : String)
  | parseFailed (e : ParseError)
deriving DecidableEq

/-- The candidate loop of search_for_package: parse each candidate in
order, skipping those that raise IOError (with a diagnostic), re-raising
an undefined-variable failure immediately tagged with the candidate path,
and letting any other parse error propagate. -/
def collectPkgs (parse : String → PkgParse) : List String → Except SearchError (List Package)
  | [] => .ok []
  | f :: fs =>
    match parse f with
    | .ok p =>
      match collectPkgs parse fs with
      | .error e => .error e
      | .ok ps => .ok (p :: ps)
    | .ioError => collectPkgs parse fs
    | .undefinedVar v => .error (.undefinedVarError v f)
    | .parseFailed e => .error (.parseFailed e)

/-- search_for_package from pkgsearcher.py, with the candidate list and
the per-candidate parse outcome passed in (the source obtains the
candidates from the direct-file check or search_for_pcfile and parses by
reading the filesystem).  No candidates is PackageNotFoundError; all
candidates unopenable (but at least one present) is NoOpenableFilesError;
otherwise the parsed packages are filtered by meets_requirement on their
version property and the first survivor is returned, or
PackageNotFoundError if none survives. -/
def search_for_package (dep : Dependency) (pcfiles : List String)
    (parse : String → PkgParse) : Except SearchError Package :=
  if pcfiles.isEmpty then .error (.packageNotFound (depToString dep))
  else
    match collectPkgs parse pcfiles with
    | .error e => .error e
    | .ok pkgs =>
      if pkgs.isEmpty then .error (.noOpenableFiles (depToString dep))
      else
        match pkgs.filter (fun p => dep.meets_requirement p.version) with
        | [] => .error (.packageNotFound (depToString dep))
        | p :: _ => .ok p

/-- search_for_pcfile from pkgsearcher.py, with the two option flags and
the known-packages index passed in.  When prefer-uninstalled is set and
the name plus the uninstalled suffix is in the index, that entry is
returned; failing that, when uninstalled-only is set the empty list is
returned; otherwise the plain-name entry, or the empty list when the name
is unknown. -/
def search_for_pcfile (prefer_uninstalled uninstalled_only : Bool)
    (known_pkgs : List (String × List String)) (pkgname : String) : List String :=
  if prefer_uninstalled then
    match lookupAssoc known_pkgs (pkgname ++ "-uninstalled") with
    | some paths => paths
    | none =>
      if uninstalled_only then []
      else
        match lookupAssoc known_pkgs pkgname with
        | some paths => paths
        | none => []
  else
    match lookupAssoc known_pkgs pkgname with
    | some paths => paths
    | none => []

/-- The successfully parsed candidates, in candidate order: the packages
the claim about version filtering speaks of. -/
def successParsed (parse : String → PkgParse) (pcfiles : List String) : List Package :=
  pcfiles.filterMap (fun f =>
    match parse f with
    | .ok p => some p
    | _ => none)

/-- A parse outcome is soft when the candidate loop survives it: success,
or the skipped IOError. -/
def softParse : PkgParse → Bool
  | .ok _ => true
  | .ioError => true
  | .undefinedVar _ => false
  | .parseFailed _ => false

/-! ## Concrete fixtures used to evaluate the embedding -/

/-- A candidate-parse function for which every candidate raises IOError. -/
def c2Parse : String → PkgParse := fun _ => .ioError

/-- An index holding both an uninstalled and an installed entry for foo. -/
def knownBothW : List (String × List String) :=
  [("foo-uninstalled", ["u.pc"]), ("foo", ["i.pc"])]

/-- An index holding only an installed entry for foo. -/
def knownPlainW : List (String × List String) := [("foo", ["i.pc"])]

/-- A parse state in which the variable libdir is already defined. -/
def dupVarState : PCState :=
  ⟨[("libdir", "/usr/lib")], [("libdir", "/usr/lib")], empty_raw_props, []⟩

/-- A parse state in which the property key Version has been seen. -/
def dupPropState : PCState := ⟨[], [], empty_raw_props, ["Version"]⟩

/-- A candidate-parse function whose first candidate has an undefined
variable while the second parses to a satisfying package. -/
def c1Parse : String → PkgParse := fun f =>
  if f = "a.pc" then .undefinedVar "x" else .ok ⟨"bar", ⟨"2.0"⟩⟩

/-- A candidate-parse function with one unopenable candidate, one new
package and one old package. -/
def c1GoodParse : String → PkgParse := fun f =>
  if f = "old.pc" then .ok ⟨"bar", ⟨"0.5"⟩⟩
  else if f = "gone.pc" then .ioError
  else .ok ⟨"bar", ⟨"2.0"⟩⟩

/-! ## Helper lemmas -/

theorem split_pc_file_line_ne_empty {line : String} {t : String × String × LineType}
    (h : split_pc_file_line line = some t) : line ≠ "" := by
  intro he
  subst he
  have : split_pc_file_line "" = none := rfl
  rw [this] at h
  exact Option.noConfusion h

theorem collectPkgs_of_allIOError (parse : String → PkgParse) (fs : List String)
    (h : ∀ f ∈ fs, parse f = .ioError) : collectPkgs parse fs = .ok [] := by
  induction fs with
  | nil => rfl
  | cons f fs ih =>
    have hf : parse f = .ioError := h f (by simp)
    have hrest := ih (fun g hg => h g (by simp [hg]))
    simp [collectPkgs, hf, hrest]

theorem collectPkgs_of_soft (parse : String → PkgParse) (fs : List String)
    (h : ∀ f ∈ fs, softParse (parse f) = true) :
    collectPkgs parse fs = .ok (successParsed parse fs) := by
  induction fs with
  | nil => rfl
  | cons f fs ih =>
    have hf := h f (by simp)
    have hrest := ih (fun g hg => h g (by simp [hg]))
    cases hp : parse f with
    | ok p => simp [collectPkgs, successParsed, hp, hrest]
    | ioError => simp [collectPkgs, successParsed, hp, hrest]
    | undefinedVar v => rw [hp] at hf; exact absurd hf (by simp [softParse])
    | parseFailed e => rw [hp] at hf; exact absurd hf (by simp [softParse])

theorem lookupAssoc_isSome_eq_any {α : Type} (m : List (String × α)) (k : String) :
    (lookupAssoc m k).isSome = m.any (fun p => p.1 == k) := by
  induction m with
  | nil => rfl
  | cons p m ih =>
    by_cases h : p.1 == k
    · simp [lookupAssoc, List.find?_cons, h]
    · simp only [lookupAssoc, List.find?_cons, h] at ih ⊢
      simpa [lookupAssoc, h] using ih

theorem any_key_eq_map_any (m : List (String × String)) (k : String) :
    m.any (fun p => p.1 == k) = (m.map Prod.fst).any (fun s => s == k) := by
  induction m with
  | nil => rfl
  | cons p m ih => simp [ih]

theorem setAssoc_keys (m : List (String × String)) (k v : String)
    (h : m.any (fun p => p.1 == k) = true) :
    (setAssoc m k v).map Prod.fst = m.map Prod.fst := by
  unfold setAssoc
  rw [if_pos h, List.map_map]
  apply List.map_congr_left
  intro p _
  by_cases hp : p.1 == k
  · have : p.1 = k := by simpa using hp
    simp [Function.comp, hp, this]
  · simp [Function.comp, hp]


end PykgConfig

namespace PykgConfig

/-! ## Claim theorems -/

/-- C2: with at least one candidate and every candidate failing to open
with an IOError, search_for_package fails with the all-candidates-
unreadable error; with zero candidates it fails with the plain
package-not-found error; the two errors are distinct. -/
theorem C2_all_unreadable (dep : Dependency) (pcfiles : List String)
    (parse : String → PkgParse) (h1 : pcfiles ≠ [])
    (h2 : ∀ f ∈ pcfiles, parse f = .ioError) :
    search_for_package dep pcfiles parse = .error (.noOpenableFiles (depToString dep)) ∧
    search_for_package dep [] parse = .error (.packageNotFound (depToString dep)) ∧
    SearchError.noOpenableFiles (depToString dep) ≠
      SearchError.packageNotFound (depToString dep) := by
  refine ⟨?_, by simp [search_for_package], by simp⟩
  have hcol := collectPkgs_of_allIOError parse pcfiles h2
  obtain ⟨f, fs, rfl⟩ := List.exists_cons_of_ne_nil h1
  simp [search_for_package, hcol]

theorem C2_witness :
    (["x.pc"] ≠ ([] : List String)) ∧
    (∀ f ∈ ["x.pc"], c2Parse f = .ioError) ∧
    search_for_package ⟨"foo", .ALWAYS_MATCH, ⟨""⟩⟩ ["x.pc"] c2Parse
      = .error (.noOpenableFiles (depToString ⟨"foo", .ALWAYS_MATCH, ⟨""⟩⟩)) :=
  ⟨by decide, by decide,
   (C2_all_unreadable ⟨"foo", .ALWAYS_MATCH, ⟨""⟩⟩ ["x.pc"] c2Parse (by decide)
     (by decide)).1⟩

/-- C3: with prefer-uninstalled enabled, an uninstalled-suffixed index
entry is returned as is, whatever the plain-name entry holds; with
uninstalled-only also enabled and no uninstalled entry, the empty list is
returned even when a plain-name entry exists. -/
theorem C3_prefer_uninstalled (prefer only : Bool) (known : List (String × List String))
    (name : String) (hp : prefer = true) :
    (∀ paths, lookupAssoc known (name ++ "-uninstalled") = some paths →
      search_for_pcfile prefer only known name = paths) ∧
    (only = true → lookupAssoc known (name ++ "-uninstalled") = none →
      search_for_pcfile prefer only known name = []) := by
  subst hp
  constructor
  · intro paths h
    simp [search_for_pcfile, h]
  · intro ho h
    subst ho
    simp [search_for_pcfile, h]

theorem C3_witness :
    search_for_pcfile true false knownBothW "foo" = ["u.pc"] ∧
    search_for_pcfile true true knownPlainW "foo" = [] :=
  ⟨(C3_prefer_uninstalled true false knownBothW "foo" rfl).1 ["u.pc"] (by decide),
   (C3_prefer_uninstalled true true knownPlainW "foo" rfl).2 rfl (by decide)⟩

/-- C4: parse_line fails with the duplicate-definition error when a
variable key is already in the variable mapping, and when a property key
string is already in the seen list; a not-yet-seen property key is matched
against the known-property table case-insensitively (by its lowercase
form) and recorded under the lowercase key. -/
theorem C4_duplicate_definition (line : String) (st : PCState)
    (globals : List (String × String)) (k v : String) :
    (split_pc_file_line line = some (k, v, .VARIABLE) →
      st.vars.any (fun p => p.1 == k) = true →
      parse_line line st globals = .error (.multiplyDefined k)) ∧
    (split_pc_file_line line = some (k, v, .PROPERTY) →
      k ∈ st.seen_props →
      parse_line line st globals = .error (.multiplyDefined k)) ∧
    (split_pc_file_line line = some (k, v, .PROPERTY) →
      k ∉ st.seen_props →
      (lookupAssoc empty_raw_props (pyLower k)).isSome = true →
      parse_line line st globals =
        .ok { st with props := setAssoc st.props (pyLower k) v,
                      seen_props := st.seen_props ++ [k] }) := by
  refine ⟨fun hs hdup => ?_, fun hs hdup => ?_, fun hs hnew hknown => ?_⟩
  · have hne := split_pc_file_line_ne_empty hs
    simp [parse_line, hne, hs, hdup]
  · have hne := split_pc_file_line_ne_empty hs
    simp [parse_line, hne, hs, hdup]
  · have hne := split_pc_file_line_ne_empty hs
    simp [parse_line, hne, hs, hnew, hknown]

theorem C4_witness :
    parse_line "libdir=/opt/lib" dupVarState [] = .error (.multiplyDefined "libdir") ∧
    parse_line "Version: 2.0" dupPropState [] = .error (.multiplyDefined "Version") ∧
    parse_line "Version: 1.0" initPCState [] =
      .ok { initPCState with props := setAssoc initPCState.props (pyLower "Version") "1.0",
                             seen_props := initPCState.seen_props ++ ["Version"] } :=
  ⟨(C4_duplicate_definition "libdir=/opt/lib" dupVarState [] "libdir" "/opt/lib").1
     (by decide) (by decide),
   (C4_duplicate_definition "Version: 2.0" dupPropState [] "Version" "2.0").2.1
     (by decide) (by decide),
   (C4_duplicate_definition "Version: 1.0" initPCState [] "Version" "1.0").2.2
     (by decide) (by decide) (by decide)⟩

/-- C5: evaluating merge_lines at the two-line input of the claim.  The
merge step drops the last two characters of the rstripped pending line,
although rstrip already removed the line terminator, so the character
before the continuation marker is lost as well: the result is a leading
space followed by the second fragment, not the two fragments joined by a
space. -/
theorem C5_merge_eval : merge_lines ["a\\", "b"] '\\' = .ok [" b"] := by decide

/-- C6: when the final physical line carries a line terminator after the
continuation marker, the trailing-continuation guard (which inspects only
the very last character) does not fire and the merge loop runs off the end
of the list, an uncaught IndexError; only a final line whose very last
character is the marker raises the trailing-continuation error. -/
theorem C6_trailing_eval :
    merge_lines ["a\\\n"] '\\' = .error .indexError ∧
    merge_lines ["a\\"] '\\' = .error (.trailingContinuation "a\\") := by decide

/-- C7 counterexample: parsing the bare declaration line of a known
property records the empty string for it (the value group is coalesced to
the empty string before parse_line ever checks for a missing value), not a
nonempty default; the modelled default of the key is itself the empty
string. -/
theorem C7_counterexample :
    (parse_pc_file_lines ["version:"] []).map (fun r => lookupAssoc r.2.2 "version")
      = .ok (some "") ∧
    lookupAssoc empty_raw_props "version" = some "" := by decide

/-- C7 amended: for every key of the known-property table, parsing the
bare declaration line of that key succeeds and records the empty string
for it, which coincides with the default only because every default in
the table is the empty string; the default-substitution branch of
parse_line is unreachable from the pipeline. -/
theorem C7_bare_key_records_empty (k d : String) (h : (k, d) ∈ empty_raw_props) :
    (parse_pc_file_lines [k ++ ":"] []).map (fun r => lookupAssoc r.2.2 k)
      = .ok (some "") ∧ d = "" := by
  fin_cases h <;> exact ⟨by decide, rfl⟩

theorem C7_witness :
    ("version", "") ∈ empty_raw_props ∧
    (parse_pc_file_lines ["version" ++ ":"] []).map
      (fun r => lookupAssoc r.2.2 "version") = .ok (some "") :=
  ⟨by decide, (C7_bare_key_records_empty "version" "" (by decide)).1⟩

/-- C8: a nonempty line matching neither the property grammar nor the
variable grammar is skipped: parse_line returns the state unchanged, so
the raw-variable, variable and property mappings are exactly those
produced without the line. -/
theorem C8_malformed_skipped (line : String) (st : PCState)
    (globals : List (String × String)) (h1 : line ≠ "")
    (h2 : split_pc_file_line line = none) :
    parse_line line st globals = .ok st := by
  simp [parse_line, h1, h2]

theorem C8_witness :
    ("!!!" ≠ "") ∧ split_pc_file_line "!!!" = none ∧
    parse_line "!!!" initPCState [] = .ok initPCState :=
  ⟨by decide, by decide,
   C8_malformed_skipped "!!!" initPCState [] (by decide) (by decide)⟩

theorem parse_line_props_keys {line : String} {st st2 : PCState}
    {globals : List (String × String)}
    (hkeys : st.props.map Prod.fst = empty_raw_props.map Prod.fst)
    (h : parse_line line st globals = .ok st2) :
    st2.props.map Prod.fst = empty_raw_props.map Prod.fst := by
  unfold parse_line at h
  by_cases hline : line = ""
  · rw [if_pos hline] at h
    rw [← Except.ok.inj h]
    exact hkeys
  · rw [if_neg hline] at h
    cases hsplit : split_pc_file_line line with
    | none =>
      rw [hsplit] at h
      rw [← Except.ok.inj h]
      exact hkeys
    | some t =>
      obtain ⟨k, v, ty⟩ := t
      rw [hsplit] at h
      cases ty with
      | VARIABLE =>
        dsimp only at h
        by_cases hdup : st.vars.any (fun p => p.1 == k) = true
        · rw [if_pos hdup] at h
          exact absurd h (by simp)
        · rw [if_neg hdup] at h
          cases hg : lookupAssoc globals k with
          | some gval =>
            rw [hg] at h
            dsimp only at h
            cases hsub : substitute gval st.vars globals with
            | error e => rw [hsub] at h; exact absurd h (by simp)
            | ok sub =>
              rw [hsub] at h
              rw [← Except.ok.inj h]
              exact hkeys
          | none =>
            rw [hg] at h
            dsimp only at h
            cases hsub : substitute (pyStrip v) st.vars globals with
            | error e => rw [hsub] at h; exact absurd h (by simp)
            | ok sub =>
              rw [hsub] at h
              rw [← Except.ok.inj h]
              exact hkeys
      | PROPERTY =>
        dsimp only at h
        by_cases hseen : k ∈ st.seen_props
        · rw [if_pos hseen] at h
          exact absurd h (by simp)
        · rw [if_neg hseen] at h
          by_cases hknown : (lookupAssoc empty_raw_props (pyLower k)).isSome = true
          · rw [if_pos hknown] at h
            rw [← Except.ok.inj h]
            have hany : st.props.any (fun p => p.1 == pyLower k) = true := by
              rw [any_key_eq_map_any, hkeys, ← any_key_eq_map_any]
              rw [lookupAssoc_isSome_eq_any] at hknown
              exact hknown
            simpa [setAssoc_keys st.props (pyLower k) v hany] using hkeys
          · rw [if_neg hknown] at h
            rw [← Except.ok.inj h]
            exact hkeys

theorem foldl_parse_props_keys (globals : List (String × String)) (ls : List String) :
    ∀ st st2 : PCState, st.props.map Prod.fst = empty_raw_props.map Prod.fst →
      ls.foldlM (fun st line => parse_line (pyStrip (strip_comments line)) st globals) st
        = .ok st2 →
      st2.props.map Prod.fst = empty_raw_props.map Prod.fst := by
  induction ls with
  | nil =>
    intro st st2 hk h
    simp only [List.foldlM_nil] at h
    rw [← Except.ok.inj h]
    exact hk
  | cons l ls ih =>
    intro st st2 hk h
    rw [List.foldlM_cons] at h
    cases hp : parse_line (pyStrip (strip_comments l)) st globals with
    | error e =>
      rw [hp] at h
      exact Except.noConfusion h
    | ok st1 =>
      rw [hp] at h
      exact ih st1 st2 (parse_line_props_keys hk hp) h

/-- C10: whenever parse_pc_file_lines succeeds, the key list of the
returned properties mapping is exactly the key list of the fixed
known-property table (all lowercase): unknown keys written in the file are
never inserted and no known key is ever removed. -/
theorem C10_props_keys_fixed (lines : List String) (globals : List (String × String))
    (rv vs ps : List (String × String))
    (h : parse_pc_file_lines lines globals = .ok (rv, vs, ps)) :
    ps.map Prod.fst = empty_raw_props.map Prod.fst := by
  unfold parse_pc_file_lines at h
  cases hm : merge_lines lines '\\' with
  | error e => rw [hm] at h; exact Except.noConfusion h
  | ok merged =>
    rw [hm] at h
    dsimp only at h
    cases hf : merged.foldlM
        (fun st line => parse_line (pyStrip (strip_comments line)) st globals)
        initPCState with
    | error e => rw [hf] at h; exact Except.noConfusion h
    | ok st =>
      rw [hf] at h
      dsimp only at h
      have hps : st.props = ps := congrArg (fun t => t.2.2) (Except.ok.inj h)
      rw [← hps]
      exact foldl_parse_props_keys globals merged initPCState st rfl hf

/-- C1 counterexample: two candidates exist, the second parses
successfully and satisfies the constraint, but the first fails with an
undefined-variable error (c1Parse); search_for_package re-raises that
error tagged with the first candidate path instead of returning the
package parsed from the second candidate. -/
theorem C1_counterexample :
    c1Parse "b.pc" = .ok ⟨"bar", ⟨"2.0"⟩⟩ ∧
    Dependency.meets_requirement ⟨"bar", .GREATER_THAN_EQUAL, ⟨"1.0"⟩⟩ ⟨"2.0"⟩ = true ∧
    search_for_package ⟨"bar", .GREATER_THAN_EQUAL, ⟨"1.0"⟩⟩ ["a.pc", "b.pc"] c1Parse
      = .error (.undefinedVarError "x" "a.pc") := by
  refine ⟨by decide, by decide, by decide⟩

/-- C1 amended: when every candidate either parses successfully or merely
fails to open (IOError), and at least one parses successfully,
search_for_package returns the package parsed from the first candidate (in
candidate-list order) whose version satisfies the constraint, and fails
with the plain package-not-found error when no successfully parsed
candidate satisfies it. -/
theorem C1_version_filtering (dep : Dependency) (pcfiles : List String)
    (parse : String → PkgParse)
    (hsoft : ∀ f ∈ pcfiles, softParse (parse f) = true)
    (hsome : successParsed parse pcfiles ≠ []) :
    search_for_package dep pcfiles parse =
      match (successParsed parse pcfiles).filter
          (fun p => dep.meets_requirement p.version) with
      | [] => .error (.packageNotFound (depToString dep))
      | p :: _ => .ok p := by
  have hcol := collectPkgs_of_soft parse pcfiles hsoft
  have hne : pcfiles ≠ [] := by
    intro hn
    subst hn
    exact hsome rfl
  obtain ⟨f, fs, rfl⟩ := List.exists_cons_of_ne_nil hne
  unfold search_for_package
  rw [hcol]
  dsimp only
  rw [if_neg (by simp)]
  rw [if_neg (by simpa [List.isEmpty_iff] using hsome)]

theorem C1_witness :
    (∀ f ∈ ["gone.pc", "new.pc", "old.pc"], softParse (c1GoodParse f) = true) ∧
    successParsed c1GoodParse ["gone.pc", "new.pc", "old.pc"] ≠ [] ∧
    search_for_package ⟨"bar", .GREATER_THAN_EQUAL, ⟨"1.0"⟩⟩
      ["gone.pc", "new.pc", "old.pc"] c1GoodParse = .ok ⟨"bar", ⟨"2.0"⟩⟩ := by
  refine ⟨by decide, by decide, ?_⟩
  have h := C1_version_filtering ⟨"bar", .GREATER_THAN_EQUAL, ⟨"1.0"⟩⟩
    ["gone.pc", "new.pc", "old.pc"] c1GoodParse (by decide) (by decide)
  exact h.trans (by decide)

theorem C10_witness :
    parse_pc_file_lines ["Name: foo", "unknownkey: zzz"] [] =
      .ok ([], [],
        [("name", "foo"), ("description", ""), ("version", ""),
         ("requires", ""), ("requires.private", ""), ("conflicts", ""),
         ("libs", ""), ("libs.private", ""), ("cflags", "")]) ∧
    ([("name", "foo"), ("description", ""), ("version", ""),
      ("requires", ""), ("requires.private", ""), ("conflicts", ""),
      ("libs", ""), ("libs.private", ""), ("cflags", "")].map Prod.fst
        = empty_raw_props.map Prod.fst) :=
  ⟨by decide,
   C10_props_keys_fixed ["Name: foo", "unknownkey: zzz"] [] [] [] _ (by decide)⟩

theorem string_data_append (a b : String) : (a ++ b).data = a.data ++ b.data := rfl

theorem string_mk_data (s : String) : (⟨s.data⟩ : String) = s := rfl

theorem opTok_cases {c : Char} (h : isOpTokChar c = true) :
    c = '!' ∨ c = '=' ∨ c = '<' ∨ c = '>' := by
  simp [isOpTokChar] at h
  tauto

theorem opTok_not_name {c : Char} (h : isOpTokChar c = true) : isNameTokChar c = false := by
  rcases opTok_cases h with rfl | rfl | rfl | rfl <;> decide

theorem opTok_not_space {c : Char} (h : isOpTokChar c = true) : isPySpace c = false := by
  rcases opTok_cases h with rfl | rfl | rfl | rfl <;> decide

theorem opTok_ne_comma {c : Char} (h : isOpTokChar c = true) : c ≠ ',' := by
  rcases opTok_cases h with rfl | rfl | rfl | rfl <;> decide

theorem nameTok_not_space {c : Char} (h : isNameTokChar c = true) : isPySpace c = false := by
  simp [isNameTokChar] at h
  tauto

theorem verTok_not_space {c : Char} (h : isVerTokChar c = true) : isPySpace c = false := by
  simp [isVerTokChar] at h
  tauto

theorem takeWhile_nil_of_head {p : Char → Bool} {l : List Char}
    (h : ∀ c, l.head? = some c → p c = false) : l.takeWhile p = [] := by
  cases l with
  | nil => rfl
  | cons c cs => simp [List.takeWhile_cons, h c rfl]

theorem takeWhile_all {p : Char → Bool} {l : List Char} (h : ∀ c ∈ l, p c = true) :
    l.takeWhile p = l := by
  induction l with
  | nil => rfl
  | cons c cs ih =>
    simp [List.takeWhile_cons, h c (by simp), ih (fun d hd => h d (by simp [hd]))]

theorem dropWhile_cons_false {p : Char → Bool} {c : Char} {cs : List Char}
    (h : p c = false) : (c :: cs).dropWhile p = c :: cs := by
  simp [List.dropWhile_cons, h]

theorem dropWhile_all_false {p : Char → Bool} {l : List Char}
    (h : ∀ c ∈ l, p c = false) : l.dropWhile p = l := by
  cases l with
  | nil => rfl
  | cons c cs => exact dropWhile_cons_false (h c (by simp))

theorem pyStrip_eq_self {s : String} (h : ∀ c ∈ s.data, isPySpace c = false) :
    pyStrip s = s := by
  unfold pyStrip pyLstrip pyRstrip
  have h1 : s.data.dropWhile isPySpace = s.data := dropWhile_all_false h
  have h2 : s.data.reverse.dropWhile isPySpace = s.data.reverse :=
    dropWhile_all_false (fun c hc => h c (List.mem_reverse.mp hc))
  dsimp only
  rw [h1, h2, List.reverse_reverse]

theorem matchOne_render (n o v : List Char)
    (hn : n ≠ []) (hnc : ∀ c ∈ n, isNameTokChar c = true)
    (ho : o ≠ []) (hoc : ∀ c ∈ o, isOpTokChar c = true)
    (hv : v ≠ []) (hvc : ∀ c ∈ v, isVerTokChar c = true)
    (hvh : ∀ c, v.head? = some c → isOpTokChar c = false) :
    matchOne (n ++ (o ++ v)) = some ((⟨n⟩, ⟨o⟩, ⟨v⟩), []) := by
  obtain ⟨b, o2, rfl⟩ := List.exists_cons_of_ne_nil ho
  obtain ⟨w, v2, rfl⟩ := List.exists_cons_of_ne_nil hv
  have hb : isOpTokChar b = true := hoc b (by simp)
  have hw : isOpTokChar w = false := hvh w rfl
  have hwv : isVerTokChar w = true := hvc w (by simp)
  have htail : ((b :: o2) ++ (w :: v2)).takeWhile isNameTokChar = [] := by
    rw [List.cons_append]
    refine takeWhile_nil_of_head (fun c hc => ?_)
    simp only [List.head?_cons, Option.some.injEq] at hc
    subst hc
    exact opTok_not_name hb
  have hname : (n ++ ((b :: o2) ++ (w :: v2))).takeWhile isNameTokChar = n := by
    rw [List.takeWhile_append_of_pos hnc, htail, List.append_nil]
  have hops : ((b :: o2) ++ (w :: v2)).takeWhile isOpTokChar = b :: o2 := by
    rw [List.takeWhile_append_of_pos hoc]
    have : (w :: v2).takeWhile isOpTokChar = [] := by
      refine takeWhile_nil_of_head (fun c hc => ?_)
      simp only [List.head?_cons, Option.some.injEq] at hc
      subst hc
      exact hw
    rw [this, List.append_nil]
  have hver : (w :: v2).takeWhile isVerTokChar = w :: v2 := takeWhile_all hvc
  have hnsp : ∀ c ∈ (b :: o2) ++ (w :: v2), isPySpace c = false := by
    intro c hc
    rcases List.mem_append.mp hc with hc | hc
    · exact opTok_not_space (hoc c hc)
    · exact verTok_not_space (hvc c hc)
  simp only [matchOne]
  rw [hname]
  rw [if_neg (by simp [hn])]
  rw [List.drop_left]
  rw [List.cons_append]
  dsimp only
  rw [if_neg (opTok_ne_comma hb)]
  simp only [matchOpVer]
  rw [← List.cons_append]
  rw [dropWhile_all_false hnsp]
  rw [hops]
  rw [List.drop_left]
  rw [if_neg (by simp)]
  rw [dropWhile_cons_false (verTok_not_space hwv)]
  rw [hver]
  rw [if_neg (by simp)]
  rw [List.drop_length]

theorem findallGo_nil (fuel : Nat) : findallGo fuel [] = [] := by
  cases fuel <;> rfl

theorem findallGo_succ (fuel : Nat) (c : Char) (cs : List Char) :
    findallGo (fuel + 1) (c :: cs) =
      match matchOne (c :: cs) with
      | some (t, rest) => t :: findallGo fuel rest
      | none => findallGo fuel cs := rfl

theorem findallGo_succ_match (fuel : Nat) (c : Char) (cs : List Char)
    (t : String × String × String) (rest : List Char)
    (h : matchOne (c :: cs) = some (t, rest)) :
    findallGo (fuel + 1) (c :: cs) = t :: findallGo fuel rest := by
  rw [findallGo_succ, h]

theorem findall_render (n o v : List Char)
    (hn : n ≠ []) (hnc : ∀ c ∈ n, isNameTokChar c = true)
    (ho : o ≠ []) (hoc : ∀ c ∈ o, isOpTokChar c = true)
    (hv : v ≠ []) (hvc : ∀ c ∈ v, isVerTokChar c = true)
    (hvh : ∀ c, v.head? = some c → isOpTokChar c = false) :
    findallGo (n ++ (o ++ v)).length (n ++ (o ++ v)) = [(⟨n⟩, ⟨o⟩, ⟨v⟩)] := by
  have hm := matchOne_render n o v hn hnc ho hoc hv hvc hvh
  obtain ⟨a, n2, rfl⟩ := List.exists_cons_of_ne_nil hn
  rw [List.cons_append] at hm ⊢
  rw [List.length_cons]
  rw [findallGo_succ_match _ _ _ _ _ hm]
  rw [findallGo_nil]

theorem C9_aux (n v o : String) (op : Operator)
    (hn : n.data ≠ []) (hnc : ∀ c ∈ n.data, isNameTokChar c = true)
    (hv : v.data ≠ []) (hvc : ∀ c ∈ v.data, isVerTokChar c = true)
    (hvh : ∀ c, v.data.head? = some c → isOpTokChar c = false)
    (hoeq : operator_to_text op = o)
    (hod : o.data ≠ []) (hoc : ∀ c ∈ o.data, isOpTokChar c = true)
    (hround : text_to_operator o = op) :
    parse_package_spec_list (depToString ⟨n, op, ⟨v⟩⟩) = [⟨n, op, ⟨v⟩⟩] := by
  have hraw : v ≠ "" := fun he => hv (by rw [he])
  have hdts : depToString ⟨n, op, ⟨v⟩⟩ = (n ++ o) ++ v := by
    simp [depToString, Version.is_empty, hraw, hoeq]
  have hnospace : ∀ c ∈ ((n ++ o) ++ v).data, isPySpace c = false := by
    intro c hc
    rw [string_data_append, string_data_append] at hc
    rcases List.mem_append.mp hc with hc | hc
    · rcases List.mem_append.mp hc with hc | hc
      · exact nameTok_not_space (hnc c hc)
      · exact opTok_not_space (hoc c hc)
    · exact verTok_not_space (hvc c hc)
  have hdata : ((n ++ o) ++ v).data = n.data ++ (o.data ++ v.data) := by
    rw [string_data_append, string_data_append, List.append_assoc]
  have hfind := findall_render n.data o.data v.data hn hnc hod hoc hv hvc hvh
  rw [hdts]
  simp only [parse_package_spec_list]
  rw [pyStrip_eq_self hnospace]
  rw [hdata]
  rw [hfind]
  simp only [List.map_cons, List.map_nil]
  rw [string_mk_data, string_mk_data, string_mk_data]
  rw [hround]
  rw [if_pos hraw]

/-- C9 amended: rendering a Dependency to text and re-parsing yields the
one-element list holding a structurally equal Dependency, provided the
Dependency is well formed for the spec-list grammar: the name is nonempty
and free of whitespace, commas and operator characters, the operator is a
real relational operator (not always-match), and the version text is
nonempty, free of whitespace and commas, and does not begin with an
operator character. -/
theorem C9_roundtrip (d : Dependency)
    (hn : d.name.data ≠ []) (hnc : ∀ c ∈ d.name.data, isNameTokChar c = true)
    (hop : d.operator ≠ .ALWAYS_MATCH)
    (hv : d.version.raw.data ≠ [])
    (hvc : ∀ c ∈ d.version.raw.data, isVerTokChar c = true)
    (hvh : ∀ c, d.version.raw.data.head? = some c → isOpTokChar c = false) :
    parse_package_spec_list (depToString d) = [d] := by
  obtain ⟨n, op, v⟩ := d
  obtain ⟨v⟩ := v
  dsimp only at hn hnc hop hv hvc hvh
  cases op with
  | ALWAYS_MATCH => exact absurd rfl hop
  | LESS_THAN =>
    exact C9_aux n v "<" _ hn hnc hv hvc hvh rfl (by decide) (by decide) (by decide)
  | LESS_THAN_EQUAL =>
    exact C9_aux n v "<=" _ hn hnc hv hvc hvh rfl (by decide) (by decide) (by decide)
  | EQUAL =>
    exact C9_aux n v "=" _ hn hnc hv hvc hvh rfl (by decide) (by decide) (by decide)
  | NOT_EQUAL =>
    exact C9_aux n v "!=" _ hn hnc hv hvc hvh rfl (by decide) (by decide) (by decide)
  | GREATER_THAN_EQUAL =>
    exact C9_aux n v ">=" _ hn hnc hv hvc hvh rfl (by decide) (by decide) (by decide)
  | GREATER_THAN =>
    exact C9_aux n v ">" _ hn hnc hv hvc hvh rfl (by decide) (by decide) (by decide)

/-- C9 counterexample: a Dependency whose name contains a space renders to
a text that re-parses as two dependencies, not as the original one-element
list, so the round trip fails for an arbitrary Dependency with nonempty
version. -/
theorem C9_counterexample :
    parse_package_spec_list (depToString ⟨"a b", .GREATER_THAN_EQUAL, ⟨"1"⟩⟩)
      = [⟨"a", .ALWAYS_MATCH, ⟨""⟩⟩, ⟨"b", .GREATER_THAN_EQUAL, ⟨"1"⟩⟩] ∧
    parse_package_spec_list (depToString ⟨"a b", .GREATER_THAN_EQUAL, ⟨"1"⟩⟩)
      ≠ [⟨"a b", .GREATER_THAN_EQUAL, ⟨"1"⟩⟩] := by
  refine ⟨by decide, by decide⟩

theorem C9_witness :
    ("glib-2.0".data ≠ []) ∧ (∀ c ∈ "glib-2.0".data, isNameTokChar c = true) ∧
    (Operator.GREATER_THAN_EQUAL ≠ Operator.ALWAYS_MATCH) ∧
    ("1.2".data ≠ []) ∧ (∀ c ∈ "1.2".data, isVerTokChar c = true) ∧
    (∀ c, "1.2".data.head? = some c → isOpTokChar c = false) ∧
    parse_package_spec_list (depToString ⟨"glib-2.0", .GREATER_THAN_EQUAL, ⟨"1.2"⟩⟩)
      = [⟨"glib-2.0", .GREATER_THAN_EQUAL, ⟨"1.2"⟩⟩] := by
  refine ⟨by decide, by decide, by decide, by decide, by decide, by decide, ?_⟩
  exact C9_roundtrip ⟨"glib-2.0", .GREATER_THAN_EQUAL, ⟨"1.2"⟩⟩
    (by decide) (by decide) (by decide) (by decide) (by decide) (by decide)

end PykgConfig
